import Mathlib

/-!
Verification of git-remote-codecommit (src/git_remote_codecommit/__init__.py)
against its natural-language specification.

The Python module is shallowly embedded: `urlparse` models the scheme/netloc
fragment of CPython 3.11's `urllib.parse.urlsplit` (the only fields
`Context.from_url` reads), `resolve` models `Context.from_url` with botocore's
ambient configuration abstracted into an explicit `Env`, and the external
SigV4 signing primitive is abstracted into a `Signer` parameter, with the
wall clock (`datetime.datetime.utcnow`) passed in as an explicit `Timestamp`.
Only the ASCII fragment of Unicode string handling is modelled; inputs with a
character outside ASCII are mapped to a distinguished `nonAscii` result (the
only behaviour we would otherwise need is `unicodedata.normalize`, which is a
no-op path for ASCII netlocs in `_checknetloc`).
-/

namespace GitRemoteCodecommit

/-! ## Characters and small string utilities -/

/-- A character of the ASCII range. -/
def isAsciiChar (c : Char) : Bool := c.toNat < 128

/-- Characters CPython's `urllib.parse` accepts inside a scheme
(`scheme_chars`): ASCII letters, digits, and the three of `+-.` . -/
def isSchemeChar (c : Char) : Bool :=
  ('a' ≤ c && c ≤ 'z') || ('A' ≤ c && c ≤ 'Z') || ('0' ≤ c && c ≤ '9') ||
  c = '+' || c = '-' || c = '.'

/-- An ASCII letter: the guard `url[0].isascii() and url[0].isalpha()` of
`urlsplit`. -/
def isAsciiAlpha (c : Char) : Bool :=
  ('a' ≤ c && c ≤ 'z') || ('A' ≤ c && c ≤ 'Z')

/-- An ASCII lowercase letter, the `[a-z]` class of the region regex. -/
def isLowerAlpha (c : Char) : Bool := 'a' ≤ c && c ≤ 'z'

/-- Python `str.lower` restricted to single ASCII characters (schemes are
checked to be ASCII `scheme_chars` before being lowercased, so this table is
exactly what `url[:i].lower()` does to them). -/
def asciiLower (c : Char) : Char :=
  match c with
  | 'A' => 'a' | 'B' => 'b' | 'C' => 'c' | 'D' => 'd' | 'E' => 'e' | 'F' => 'f'
  | 'G' => 'g' | 'H' => 'h' | 'I' => 'i' | 'J' => 'j' | 'K' => 'k' | 'L' => 'l'
  | 'M' => 'm' | 'N' => 'n' | 'O' => 'o' | 'P' => 'p' | 'Q' => 'q' | 'R' => 'r'
  | 'S' => 's' | 'T' => 't' | 'U' => 'u' | 'V' => 'v' | 'W' => 'w' | 'X' => 'x'
  | 'Y' => 'y' | 'Z' => 'z'
  | other => other

/-- Split a character list at the first occurrence of `d`: Python
`s.split(d, 1)` when `d` occurs (`none` when it does not, which Python guards
with `d in s` / `s.find(d)`). -/
def splitFirst (d : Char) : List Char → Option (List Char × List Char)
  | [] => none
  | c :: rest =>
    if c = d then some ([], rest)
    else match splitFirst d rest with
         | some (a, b) => some (c :: a, b)
         | none => none

/-! ## urlparse (CPython 3.11 urllib.parse.urlsplit, scheme/netloc fields) -/

/-- The result of `urlparse` as `Context.from_url` consumes it. `invalidIPv6`
is `urlsplit`'s `ValueError("Invalid IPv6 URL")` for an authority with an
unpaired square bracket; `nonAscii` marks inputs outside the modelled ASCII
fragment. -/
inductive UrlParts where
  | parsed (scheme netloc : String)
  | invalidIPv6
  | nonAscii
deriving DecidableEq

/-- Removal of `_UNSAFE_URL_BYTES_TO_REMOVE` (tab, CR, LF), done by
`urlsplit` before any parsing. -/
def removeUnsafe (cs : List Char) : List Char :=
  cs.filter (fun c => !(c = '\t' || c = '\r' || c = '\n'))

/-- The netloc extraction of `urlsplit`: when the remaining url starts with
`//`, the netloc runs to the earliest of `/`, `?`, `#` (`_splitnetloc`);
otherwise the netloc is empty. -/
def netlocOf (rest : List Char) : Option (List Char) :=
  match rest with
  | '/' :: '/' :: tail => some (tail.takeWhile (fun c => !(c = '/' || c = '?' || c = '#')))
  | _ => none

/-- Scheme extraction of `urlsplit`: the text before the first `:` is taken
as the scheme, lowercased, when it is non-empty, starts with an ASCII letter
and consists of `scheme_chars` only; otherwise the scheme is empty and the
url is left whole. Returns (scheme, remaining url). -/
def schemeSplit (cs : List Char) : List Char × List Char :=
  match splitFirst ':' cs with
  | some (before, after) =>
    if !before.isEmpty &&
       (match before.head? with | some c => isAsciiAlpha c | none => false) &&
       before.all isSchemeChar then
      (before.map asciiLower, after)
    else ([], cs)
  | none => ([], cs)

/-- CPython 3.11 `urllib.parse.urlparse`, restricted to the scheme and netloc
components and to ASCII input. The fragment/query splits and `_checknetloc`
(a no-op for ASCII netlocs) do not affect these two components. -/
def urlparse (s : String) : UrlParts :=
  if s.data.all isAsciiChar then
    let cs := removeUnsafe s.data
    let sr := schemeSplit cs
    match netlocOf sr.2 with
    | some nl =>
      if (nl.contains '[' && !nl.contains ']') || (nl.contains ']' && !nl.contains '[') then
        .invalidIPv6
      else
        .parsed (String.mk sr.1) (String.mk nl)
    | none => .parsed (String.mk sr.1) ""
  else .nonAscii

/-! ## The region scheme pattern (line 138)

`re.match(r"^[a-z]{2}-\w*.*-\d{1}", url.scheme)` asks whether a PREFIX of the
scheme matches. Because `\w*` may match the empty string and `.` matches
every character except a newline, the pattern succeeds exactly when the
scheme starts with two lowercase ASCII letters and a hyphen, and at or after
index 3 contains a hyphen immediately followed by a decimal digit, with no
newline standing before that hyphen. (`\w` is absorbed by the adjacent `.*`
and never constrains the match; digits/letters here are ASCII since schemes
come out of `urlparse` made of lowercased `scheme_chars`.) -/

/-- Scan for a hyphen immediately followed by a digit; a newline before the
hyphen blocks the `.*` of the pattern winning through to it. -/
def hyphenDigit : List Char → Bool
  | c :: d :: rest =>
    if c = '-' && d.isDigit then true
    else if c = '\n' then false
    else hyphenDigit (d :: rest)
  | _ => false

/-- The embedded check `re.match(r"^[a-z]{2}-\w*.*-\d{1}", scheme) is not
None` of line 138 (see the section comment for the simplification). -/
def regionMatch (s : String) : Bool :=
  match s.data with
  | c0 :: c1 :: c2 :: rest =>
    isLowerAlpha c0 && isLowerAlpha c1 && c2 = '-' && hyphenDigit rest
  | _ => false

/-! ## Data model of Context.from_url -/

/-- A botocore credentials bundle: `credentials.access_key`,
`credentials.secret_key`, `credentials.token` (the session token, possibly
absent). -/
structure Credentials where
  access_key : String
  secret_key : String
  token : Option String
deriving DecidableEq

/-- The `Context` namedtuple of the source (line 53). The botocore `session`
field is an opaque handle into the ambient configuration and is represented
by the explicit `Env` instead. -/
structure Context where
  repository : String
  version : String
  region : String
  credentials : Credentials
deriving DecidableEq

/-- The error taxonomy of the module (lines 33-50), plus `urlparse`'s own
`ValueError` and the marker for input outside the modelled ASCII fragment. -/
inductive ResolveError where
  | formatError (msg : String)
  | profileNotFound (msg : String)
  | regionNotFound (msg : String)
  | regionNotAvailable (msg : String)
  | credentialsNotFound (msg : String)
  | valueError (msg : String)
  | unmodeledNonAscii
deriving DecidableEq

/-- The external (botocore / awscli) touch points `Context.from_url` performs,
in order, recorded so that claims about "no lookup happens before X" are
statable. -/
inductive ExtCall where
  | sessionCreate (profile : Option String)
  | loadPlugins
  | getAvailableRegions
  | getConfigRegion (profile : String)
  | getCredentials (profile : String)
deriving DecidableEq

/-- The ambient account configuration consumed through botocore:
`session.available_profiles`, `session.get_config_variable('region')` and
`session.get_credentials()` per profile, the flattened
`get_available_partitions`/`get_available_regions('codecommit', p)` set, and
the `CODE_COMMIT_ENDPOINT` environment override read by `git_url`. -/
structure Env where
  available_profiles : List String
  configRegion : String → Option String
  availableRegions : List String
  getCredentials : String → Option Credentials
  endpoint : Option String

/-- Message of line 100 and line 146. -/
def malformedMsg (ru : String) : String := ru ++ " is a malformed url"

/-- Message of line 107. -/
def profileNotFoundMsg (profile : String) (env : Env) : String :=
  "Profile " ++ profile ++ " not found, available profiles are: " ++
    String.intercalate ", " env.available_profiles

/-- Message of line 133. -/
def regionNotFoundMsg (profile : String) : String :=
  "Profile " ++ profile ++ " doesn't have a region available. Please set it."

/-- Message of lines 136 and 143. -/
def regionNotAvailableMsg (region : String) : String :=
  "Region " ++ region ++ " is currently not available for use with AWS CodeCommit. Please try again with a valid region. If you believe this is an error then please update your version of botocore."

/-- Message of line 150. -/
def credentialsNotFoundMsg (profile : String) : String :=
  "Profile " ++ profile ++ " doesn't have credentials available."

/-- Lines 129-146: the region dispatch on the scheme. The `codecommit` branch
reads the profile's configured region (`if not region` treats both an unset
and an empty configured region as missing); the region-shaped branch takes
the scheme itself as region; everything else is malformed. Returns the region
or the error, with the external calls this step performs. -/
def regionFor (ru : String) (env : Env) (profile scheme : String) :
    Except ResolveError String × List ExtCall :=
  if scheme = "codecommit" then
    match env.configRegion profile with
    | none => (.error (.regionNotFound (regionNotFoundMsg profile)), [.getConfigRegion profile])
    | some r =>
      if r = "" then
        (.error (.regionNotFound (regionNotFoundMsg profile)), [.getConfigRegion profile])
      else if r ∈ env.availableRegions then
        (.ok r, [.getConfigRegion profile])
      else
        (.error (.regionNotAvailable (regionNotAvailableMsg r)), [.getConfigRegion profile])
  else if regionMatch scheme then
    if scheme ∈ env.availableRegions then (.ok scheme, [])
    else (.error (.regionNotAvailable (regionNotAvailableMsg scheme)), [])
  else
    (.error (.formatError (malformedMsg ru)), [])

/-- Lines 147-152: fetch credentials for the profile and build the Context
(`protocolVersion = 'v1'`). -/
def finishResolve (env : Env) (profile repository region : String) :
    Except ResolveError Context × List ExtCall :=
  match env.getCredentials profile with
  | none =>
    (.error (.credentialsNotFound (credentialsNotFoundMsg profile)), [.getCredentials profile])
  | some credentials =>
    (.ok ⟨repository, "v1", region, credentials⟩, [.getCredentials profile])

/-- Lines 112-152 once the session exists: the best-effort awscli plugin load
(errors swallowed), the available-region computation, the region dispatch and
the credential fetch. -/
def resolveWithProfile (ru : String) (env : Env) (scheme profile repository : String)
    (calls : List ExtCall) : Except ResolveError Context × List ExtCall :=
  match (regionFor ru env profile scheme).1 with
  | .error e =>
    (.error e,
      calls ++ [ExtCall.loadPlugins, ExtCall.getAvailableRegions] ++
        (regionFor ru env profile scheme).2)
  | .ok region =>
    ((finishResolve env profile repository region).1,
      calls ++ [ExtCall.loadPlugins, ExtCall.getAvailableRegions] ++
        (regionFor ru env profile scheme).2 ++ (finishResolve env profile repository region).2)

/-- Lines 97-110 for a successfully parsed url: the malformed check, the
`profile@repository` split of the netloc (profile defaults to `default`),
session creation and the explicit-profile existence check. -/
def resolveParsed (ru : String) (env : Env) (scheme netloc : String) :
    Except ResolveError Context × List ExtCall :=
  if scheme = "" ∨ netloc = "" then
    (.error (.formatError (malformedMsg ru)), [])
  else
    match splitFirst '@' netloc.data with
    | some (p, rest) =>
      let profile := String.mk p
      if profile ∈ env.available_profiles then
        resolveWithProfile ru env scheme profile (String.mk rest) [.sessionCreate (some profile)]
      else
        (.error (.profileNotFound (profileNotFoundMsg profile env)), [.sessionCreate (some profile)])
    | none =>
      resolveWithProfile ru env scheme "default" netloc [.sessionCreate none]

/-- Lines 92-152, `Context.from_url`, with the external calls it performed.
`remote_url = none` models Python `None`. -/
def resolve (remote_url : Option String) (env : Env) :
    Except ResolveError Context × List ExtCall :=
  match remote_url with
  | none => (.error (.formatError "url required"), [])
  | some ru =>
    match urlparse ru with
    | .nonAscii => (.error .unmodeledNonAscii, [])
    | .invalidIPv6 => (.error (.valueError "Invalid IPv6 URL"), [])
    | .parsed scheme netloc => resolveParsed ru env scheme netloc

/-- The result of `Context.from_url` (the source's static method, lines
65-152). -/
def Context.from_url (remote_url : Option String) (env : Env) : Except ResolveError Context :=
  (resolve remote_url env).1

/-- The explicit-profile check of lines 102-107 as a predicate on the netloc:
when the authority names a profile (text before the first `@`), that profile
is among the configured ones; an authority without `@` always passes. -/
def profileOk (env : Env) (netloc : String) : Bool :=
  match splitFirst '@' netloc.data with
  | some (p, _) => decide (String.mk p ∈ env.available_profiles)
  | none => true

/-! ## URL signer: git_url and sign (lines 183-228) -/

/-- UTF-8 encoding of one character, as Python's `str.encode('utf-8')`
produces it byte by byte. -/
def utf8Bytes (c : Char) : List Nat :=
  let n := c.toNat
  if n < 128 then [n]
  else if n < 2048 then [192 + n / 64, 128 + n % 64]
  else if n < 65536 then [224 + n / 4096, 128 + n / 64 % 64, 128 + n % 64]
  else [240 + n / 262144, 128 + n / 4096 % 64, 128 + n / 64 % 64, 128 + n % 64]

/-- The UTF-8 bytes of a string (Python `s.encode('utf-8')`). -/
def strUtf8 (s : String) : List Nat :=
  (s.data.map utf8Bytes).flatten

/-- urllib.parse's `_ALWAYS_SAFE` byte set: ASCII letters, digits and
`_.-~`. With `safe=''` these are exactly the bytes `quote` leaves as-is. -/
def alwaysSafeByte (b : Nat) : Bool :=
  (65 ≤ b && b ≤ 90) || (97 ≤ b && b ≤ 122) || (48 ≤ b && b ≤ 57) ||
  b = 95 || b = 46 || b = 45 || b = 126

/-- Uppercase hexadecimal digit, as `quote` renders escapes (`%XX`). -/
def hexUpper (n : Nat) : Char :=
  if n < 10 then Char.ofNat (48 + n) else Char.ofNat (55 + n)

/-- One byte of `quote` output: the byte itself when always-safe, else a
percent escape. -/
def quoteByte (b : Nat) : List Char :=
  if alwaysSafeByte b then [Char.ofNat b] else ['%', hexUpper (b / 16), hexUpper (b % 16)]

/-- `botocore.compat.quote(s, safe='')` (urllib.parse.quote with an empty
safe set): UTF-8 encode, keep always-safe bytes, escape everything else. -/
def quote (s : String) : String :=
  String.mk ((strUtf8 s).map quoteByte).flatten

/-- A wall-clock instant as `datetime.datetime.utcnow()` hands it to
`strftime`. -/
structure Timestamp where
  year : Nat
  month : Nat
  day : Nat
  hour : Nat
  minute : Nat
  second : Nat
deriving DecidableEq

/-- The field ranges of a real `datetime` value (datetime caps years at 9999;
we bound them below by 1000 so that `%Y` is the plain four-digit rendering on
every platform). -/
def Timestamp.valid (t : Timestamp) : Prop :=
  1000 ≤ t.year ∧ t.year ≤ 9999 ∧ 1 ≤ t.month ∧ t.month ≤ 12 ∧ 1 ≤ t.day ∧ t.day ≤ 31 ∧
  t.hour ≤ 23 ∧ t.minute ≤ 59 ∧ t.second ≤ 59

instance (t : Timestamp) : Decidable t.valid := by
  unfold Timestamp.valid
  infer_instance

/-- Two decimal digits, zero padded: `%m`, `%d`, `%H`, `%M`, `%S`. -/
def pad2 (n : Nat) : List Char :=
  [Nat.digitChar (n / 10 % 10), Nat.digitChar (n % 10)]

/-- Four decimal digits: `%Y` for years in 1000-9999. -/
def pad4 (n : Nat) : List Char :=
  [Nat.digitChar (n / 1000 % 10), Nat.digitChar (n / 100 % 10),
   Nat.digitChar (n / 10 % 10), Nat.digitChar (n % 10)]

/-- `now.strftime('%Y%m%dT%H%M%S')` of line 222. -/
def strftime (t : Timestamp) : String :=
  String.mk (pad4 t.year ++ pad2 t.month ++ pad2 t.day ++ 'T' :: pad2 t.hour ++
             pad2 t.minute ++ pad2 t.second)

/-- The external SigV4 primitive (`botocore.auth.SigV4Auth`) as `sign` uses
it: `stringToSign` consumes the request's timestamp and the canonical
request; `signature` consumes the string to sign and the request's
timestamp. -/
structure Signer where
  stringToSign : String → String → String
  signature : String → String → String

/-- Construction of the signer from (credentials, service name, region):
`botocore.auth.SigV4Auth(credentials, 'codecommit', region)`. -/
abbrev SigV4Provider : Type := Credentials → String → String → Signer

/-- Everything lines 221-228 assemble around the external signer: the
request url, the frozen timestamp, the canonical request, the string to sign
and the signature. -/
structure SignedRequest where
  requestUrl : String
  timestamp : String
  canonicalRequest : String
  stringToSign : String
  signature : String

/-- Lines 221-227 of `sign`: build the AWSRequest for
`https://<hostname><path>`, freeze the timestamp, form the canonical request
`GIT\n<path>\n\nhost:<hostname>\n\nhost\n` and invoke the signing
primitive. -/
def signRequest (sv : SigV4Provider) (hostname path region : String)
    (credentials : Credentials) (now : Timestamp) : SignedRequest :=
  let requestUrl := "https://" ++ hostname ++ path
  let ts := strftime now
  let signer := sv credentials "codecommit" region
  let canonicalRequest := "GIT\n" ++ path ++ "\n\nhost:" ++ hostname ++ "\n\nhost\n"
  let sts := signer.stringToSign ts canonicalRequest
  ⟨requestUrl, ts, canonicalRequest, sts, signer.signature sts ts⟩

/-- Lines 209-228: the signature token `f"{timestamp}Z{signature}"` returned
by `sign`. -/
def sign (sv : SigV4Provider) (hostname path region : String)
    (credentials : Credentials) (now : Timestamp) : String :=
  let r := signRequest sv hostname path region credentials now
  r.timestamp ++ "Z" ++ r.signature

/-- Line 199: `os.environ.get('CODE_COMMIT_ENDPOINT',
f'git-codecommit.{region}.amazonaws.com')`. -/
def hostnameFor (endpoint : Option String) (region : String) : String :=
  endpoint.getD ("git-codecommit." ++ region ++ ".amazonaws.com")

/-- Line 200: `f'/{version}/repos/{repository}'`. -/
def codePath (version repository : String) : String :=
  "/" ++ version ++ "/repos/" ++ repository

/-- Lines 202-203: the username embedded in the url. Note Python truthiness:
an absent token and an empty-string token both yield no `%token` suffix. -/
def usernameOf (credentials : Credentials) : String :=
  let token := match credentials.token with
    | some t => if t = "" then "" else "%" ++ t
    | none => ""
  quote (credentials.access_key ++ token)

/-- Lines 183-206, `git_url`: the complete signed transport url. -/
def git_url (sv : SigV4Provider) (endpoint : Option String)
    (repository version region : String) (credentials : Credentials)
    (now : Timestamp) : String :=
  let hostname := hostnameFor endpoint region
  let path := codePath version repository
  let username := usernameOf credentials
  let signature := sign sv hostname path region credentials now
  "https://" ++ username ++ ":" ++ signature ++ "@" ++ hostname ++ path

/-! ## The entry point main (lines 155-180) -/

/-- What one invocation of `main` does, observably: the `error()` path for a
usage problem (one line to stderr, exit 1), the `error()` path for a caught
resolution error (same), an exception escaping `main` uncaught, or spawning
the `git remote-http` subprocess with the authenticated url. -/
inductive MainOutcome where
  | usageError (msg : String)
  | errorExit (msg : String)
  | uncaught (e : ResolveError)
  | ranSubprocess (gitCmd url : String)
deriving DecidableEq

/-- The except clause of line 179: `except (FormatError, ProfileNotFound,
RegionNotFound, CredentialsNotFound)`. `RegionNotAvailable` (and `urlparse`'s
`ValueError`) are not in the tuple. -/
def caughtByMain : ResolveError → Bool
  | .formatError _ => true
  | .profileNotFound _ => true
  | .regionNotFound _ => true
  | .credentialsNotFound _ => true
  | .regionNotAvailable _ => false
  | .valueError _ => false
  | .unmodeledNonAscii => false

/-- `str(exc)` for the module's exceptions: the message they were raised
with. -/
def ResolveError.message : ResolveError → String
  | .formatError msg => msg
  | .profileNotFound msg => msg
  | .regionNotFound msg => msg
  | .regionNotAvailable msg => msg
  | .credentialsNotFound msg => msg
  | .valueError msg => msg
  | .unmodeledNonAscii => ""

/-- Lines 160-180, `main`, on a given argv (argv[0] is the program name). -/
def main (sv : SigV4Provider) (env : Env) (now : Timestamp)
    (argv : List String) : MainOutcome :=
  if argv.length < 3 then
    .usageError "Too few arguments. This hook requires the git command and remote."
  else if argv.length > 3 then
    .usageError ("Too many arguments. Hook only accepts the git command and remote, but argv was: '"
      ++ String.intercalate "', '" argv ++ "'")
  else
    let git_cmd := argv.getD 1 ""
    let remote_url := argv.getD 2 ""
    match Context.from_url (some remote_url) env with
    | .error e => if caughtByMain e then .errorExit e.message else .uncaught e
    | .ok context =>
      .ranSubprocess git_cmd
        (git_url sv env.endpoint context.repository context.version context.region
          context.credentials now)

/-! ## Parsing the produced path (modelled from the spec)

Modelled from the spec: the repository has no parser for the produced url
path; the spec's round-trip property ("parsing the produced URL's path
component recovers protocolVersion and repositoryName exactly as supplied")
needs one, so `parsePath` follows the spec's grammar
`/<protocolVersion>/repos/<repositoryName>`: a leading slash, the version up
to the next slash, the literal segment `repos`, and the remainder as the
repository name. -/

/-- Modelled from the spec: parse `/<version>/repos/<repository>` back into
its two parameters (see the section comment). -/
def parsePath (p : String) : Option (String × String) :=
  match p.data with
  | '/' :: rest =>
    match splitFirst '/' rest with
    | some (v, tail) =>
      match tail with
      | 'r' :: 'e' :: 'p' :: 'o' :: 's' :: '/' :: repo => some (String.mk v, String.mk repo)
      | _ => none
    | none => none
  | _ => none

/-! ## Concrete fixtures used by witnesses and counterexamples -/

/-- A credentials bundle with no session token. -/
def credsA : Credentials := ⟨"AKIDEXAMPLE", "topsecretkey", none⟩

/-- A small but fully populated account configuration: one profile
(`default`) whose configured region is `us-east-1`, two provisioned regions,
credentials for `default` only, no endpoint override. -/
def envA : Env where
  available_profiles := ["default"]
  configRegion := fun p => if p = "default" then some "us-east-1" else none
  availableRegions := ["us-east-1", "us-west-2"]
  getCredentials := fun p => if p = "default" then some credsA else none
  endpoint := none

/-- A concrete stand-in for the SigV4 primitive: deterministic string
functions (the real primitive is HMAC-based and equally deterministic). -/
def svA : SigV4Provider :=
  fun _ service region =>
    ⟨fun ts canonical => service ++ "|" ++ region ++ "|" ++ ts ++ "|" ++ canonical,
     fun sts ts => "sig(" ++ sts ++ "|" ++ ts ++ ")"⟩

/-- A frozen clock instant. -/
def tsA : Timestamp := ⟨2025, 10, 12, 3, 4, 5⟩

/-- The instant one second after `tsA`. -/
def tsB : Timestamp := ⟨2025, 10, 12, 3, 4, 6⟩

end GitRemoteCodecommit

namespace GitRemoteCodecommit

/-! ## Helper lemmas -/

/-- An ASCII uppercase letter. -/
def isUpperAZ (c : Char) : Bool :=
  match c with
  | 'A' | 'B' | 'C' | 'D' | 'E' | 'F' | 'G' | 'H' | 'I' | 'J' | 'K' | 'L' | 'M'
  | 'N' | 'O' | 'P' | 'Q' | 'R' | 'S' | 'T' | 'U' | 'V' | 'W' | 'X' | 'Y' | 'Z' => true
  | _ => false

theorem asciiLower_not_upper (c : Char) : isUpperAZ (asciiLower c) = false := by
  unfold asciiLower
  split
  all_goals first
    | rfl
    | (unfold isUpperAZ; split <;> simp_all)

theorem schemeSplit_lower (cs : List Char) (c : Char) (hc : c ∈ (schemeSplit cs).1) :
    isUpperAZ c = false := by
  unfold schemeSplit at hc
  split at hc
  · split at hc
    · obtain ⟨b, -, rfl⟩ := List.mem_map.mp hc
      exact asciiLower_not_upper b
    · simp at hc
  · simp at hc

theorem urlparse_scheme_lower {ru scheme netloc : String}
    (h : urlparse ru = UrlParts.parsed scheme netloc) :
    ∀ c ∈ scheme.data, isUpperAZ c = false := by
  unfold urlparse at h
  split at h
  · simp only [] at h
    split at h
    · split at h
      · exact absurd h (by simp)
      · rw [UrlParts.parsed.injEq] at h
        obtain ⟨h1, -⟩ := h
        subst h1
        intro c hc
        exact schemeSplit_lower _ c hc
    · rw [UrlParts.parsed.injEq] at h
      obtain ⟨h1, -⟩ := h
      subst h1
      intro c hc
      exact schemeSplit_lower _ c hc
  · exact absurd h (by simp)

theorem regionFor_ok {ru : String} {env : Env} {profile scheme r : String} {calls : List ExtCall}
    (h : regionFor ru env profile scheme = (.ok r, calls)) : r ∈ env.availableRegions := by
  unfold regionFor at h
  split at h
  · split at h
    · simp at h
    · split at h
      · simp at h
      · split at h
        · rename_i hmem
          rw [Prod.mk.injEq] at h
          obtain ⟨h1, -⟩ := h
          rw [Except.ok.injEq] at h1
          subst h1
          exact hmem
        · simp at h
  · split at h
    · split at h
      · rename_i hmem
        rw [Prod.mk.injEq] at h
        obtain ⟨h1, -⟩ := h
        rw [Except.ok.injEq] at h1
        subst h1
        exact hmem
      · simp at h
    · simp at h

theorem finishResolve_ok {env : Env} {profile repository region : String} {ctx : Context}
    (h : (finishResolve env profile repository region).1 = .ok ctx) :
    ctx.version = "v1" ∧ ctx.region = region ∧
      env.getCredentials profile = some ctx.credentials := by
  unfold finishResolve at h
  split at h
  · simp at h
  · rename_i creds heq
    simp only at h
    rw [Except.ok.injEq] at h
    subst h
    exact ⟨rfl, rfl, heq⟩

theorem resolveWithProfile_ok {ru : String} {env : Env}
    {scheme profile repository : String} {calls : List ExtCall} {ctx : Context}
    (h : (resolveWithProfile ru env scheme profile repository calls).1 = .ok ctx) :
    ctx.region ∈ env.availableRegions ∧ ctx.version = "v1" ∧
      ∃ p, env.getCredentials p = some ctx.credentials := by
  unfold resolveWithProfile at h
  split at h
  · simp at h
  · rename_i region heq
    simp only at h
    obtain ⟨hv, hr, hc⟩ := finishResolve_ok h
    have hmem : region ∈ env.availableRegions := by
      rcases hrf : regionFor ru env profile scheme with ⟨res, rc⟩
      rw [hrf] at heq
      simp only at heq
      subst heq
      exact regionFor_ok hrf
    rw [hr]
    exact ⟨hmem, hv, profile, hc⟩

theorem resolveParsed_ok {ru : String} {env : Env} {scheme netloc : String} {ctx : Context}
    (h : (resolveParsed ru env scheme netloc).1 = .ok ctx) :
    ctx.region ∈ env.availableRegions ∧ ctx.version = "v1" ∧
      ∃ p, env.getCredentials p = some ctx.credentials := by
  unfold resolveParsed at h
  split at h
  · simp at h
  · split at h
    · simp only [] at h
      split at h
      · exact resolveWithProfile_ok h
      · simp at h
    · exact resolveWithProfile_ok h

theorem finishResolve_not_format {env : Env} {profile repository region : String} {msg : String} :
    (finishResolve env profile repository region).1 ≠ .error (.formatError msg) := by
  unfold finishResolve
  split <;> simp

theorem regionFor_format {ru : String} {env : Env} {profile scheme msg : String}
    (hcc : scheme ≠ "codecommit")
    (h : (regionFor ru env profile scheme).1 = .error (.formatError msg)) :
    regionMatch scheme = false := by
  unfold regionFor at h
  rw [if_neg hcc] at h
  by_cases hm : regionMatch scheme = true
  · rw [if_pos hm] at h
    split at h <;> simp at h
  · simpa using hm

theorem regionFor_not_match {ru : String} {env : Env} {profile scheme : String}
    (hcc : scheme ≠ "codecommit") (hm : regionMatch scheme = false) :
    regionFor ru env profile scheme = (.error (.formatError (malformedMsg ru)), []) := by
  unfold regionFor
  rw [if_neg hcc, if_neg (by simp [hm])]

theorem resolveWithProfile_format_iff {ru : String} {env : Env}
    {scheme profile repository : String} {calls : List ExtCall}
    (hcc : scheme ≠ "codecommit") :
    (∃ msg, (resolveWithProfile ru env scheme profile repository calls).1 =
        .error (.formatError msg)) ↔
      regionMatch scheme = false := by
  constructor
  · rintro ⟨msg, hmsg⟩
    unfold resolveWithProfile at hmsg
    split at hmsg
    · rename_i e heq
      simp only at hmsg
      rw [Except.error.injEq] at hmsg
      subst hmsg
      exact regionFor_format hcc heq
    · rename_i region heq
      simp only at hmsg
      exact absurd hmsg finishResolve_not_format
  · intro hm
    refine ⟨malformedMsg ru, ?_⟩
    unfold resolveWithProfile
    split
    · rename_i e heq
      rw [regionFor_not_match hcc hm] at heq
      simp only at heq
      rw [Except.error.injEq] at heq
      subst heq
      rfl
    · rename_i region heq
      rw [regionFor_not_match hcc hm] at heq
      simp at heq

theorem string_data_append (s t : String) : (s ++ t).data = s.data ++ t.data := rfl

theorem splitFirst_append (d : Char) (xs ys : List Char) (h : ∀ c ∈ xs, c ≠ d) :
    splitFirst d (xs ++ d :: ys) = some (xs, ys) := by
  induction xs with
  | nil => simp [splitFirst]
  | cons c cs ih =>
    have hc : c ≠ d := h c (List.mem_cons_self c cs)
    rw [List.cons_append]
    unfold splitFirst
    rw [if_neg hc, ih (fun x hx => h x (List.mem_cons_of_mem c hx))]

theorem signRequest_timestamp (sv : SigV4Provider) (hostname path region : String)
    (credentials : Credentials) (t : Timestamp) :
    (signRequest sv hostname path region credentials t).timestamp = strftime t := rfl

theorem digitChar_inj : ∀ a, a < 10 → ∀ b, b < 10 →
    Nat.digitChar a = Nat.digitChar b → a = b := by decide

theorem strftime_inj (t1 t2 : Timestamp) (h1 : t1.valid) (h2 : t2.valid)
    (h : strftime t1 = strftime t2) : t1 = t2 := by
  obtain ⟨y1, mo1, d1, hh1, mi1, s1⟩ := t1
  obtain ⟨y2, mo2, d2, hh2, mi2, s2⟩ := t2
  simp only [Timestamp.valid] at h1 h2
  obtain ⟨hy1, hy1b, hm1, hm1b, hd1, hd1b, hhh1, hmi1, hs1⟩ := h1
  obtain ⟨hy2, hy2b, hm2, hm2b, hd2, hd2b, hhh2, hmi2, hs2⟩ := h2
  have hd := congrArg String.data h
  simp only [strftime, pad4, pad2, List.cons_append, List.nil_append, List.cons.injEq,
    and_true] at hd
  obtain ⟨e1, e2, e3, e4, e5, e6, e7, e8, -, e9, e10, e11, e12, e13, e14⟩ := hd
  have q1 := digitChar_inj _ (Nat.mod_lt _ (by omega)) _ (Nat.mod_lt _ (by omega)) e1
  have q2 := digitChar_inj _ (Nat.mod_lt _ (by omega)) _ (Nat.mod_lt _ (by omega)) e2
  have q3 := digitChar_inj _ (Nat.mod_lt _ (by omega)) _ (Nat.mod_lt _ (by omega)) e3
  have q4 := digitChar_inj _ (Nat.mod_lt _ (by omega)) _ (Nat.mod_lt _ (by omega)) e4
  have q5 := digitChar_inj _ (Nat.mod_lt _ (by omega)) _ (Nat.mod_lt _ (by omega)) e5
  have q6 := digitChar_inj _ (Nat.mod_lt _ (by omega)) _ (Nat.mod_lt _ (by omega)) e6
  have q7 := digitChar_inj _ (Nat.mod_lt _ (by omega)) _ (Nat.mod_lt _ (by omega)) e7
  have q8 := digitChar_inj _ (Nat.mod_lt _ (by omega)) _ (Nat.mod_lt _ (by omega)) e8
  have q9 := digitChar_inj _ (Nat.mod_lt _ (by omega)) _ (Nat.mod_lt _ (by omega)) e9
  have q10 := digitChar_inj _ (Nat.mod_lt _ (by omega)) _ (Nat.mod_lt _ (by omega)) e10
  have q11 := digitChar_inj _ (Nat.mod_lt _ (by omega)) _ (Nat.mod_lt _ (by omega)) e11
  have q12 := digitChar_inj _ (Nat.mod_lt _ (by omega)) _ (Nat.mod_lt _ (by omega)) e12
  have q13 := digitChar_inj _ (Nat.mod_lt _ (by omega)) _ (Nat.mod_lt _ (by omega)) e13
  have q14 := digitChar_inj _ (Nat.mod_lt _ (by omega)) _ (Nat.mod_lt _ (by omega)) e14
  simp only [Timestamp.mk.injEq]
  refine ⟨by omega, by omega, by omega, by omega, by omega, by omega⟩

theorem sign_timestamp_inj {sv : SigV4Provider} {hostname path region : String}
    {credentials : Credentials} {t1 t2 : Timestamp}
    (h : sign sv hostname path region credentials t1 =
      sign sv hostname path region credentials t2) :
    strftime t1 = strftime t2 := by
  have hd := congrArg String.data h
  simp only [sign, signRequest_timestamp, string_data_append, List.append_assoc] at hd
  have hlen : (strftime t1).data.length = (strftime t2).data.length := by
    have l1 : (strftime t1).data.length = 15 := rfl
    have l2 : (strftime t2).data.length = 15 := rfl
    rw [l1, l2]
  exact congrArg String.mk (List.append_inj_left hd hlen)

/-! ## The claims -/

/-- C1 (code bug witness): on the region-shaped locator `xx-zz-1://repo`
whose region is not provisioned, `Context.from_url` raises
`RegionNotAvailable`, and `main` does not catch it (its except tuple on line
179 omits `RegionNotAvailable`), so the exception escapes `main` instead of
becoming a single diagnostic line via `error()`. -/
theorem claim1_regionNotAvailable_escapes_main :
    main svA envA tsA ["git-remote-codecommit", "fetch", "xx-zz-1://repo"] =
      .uncaught (.regionNotAvailable (regionNotAvailableMsg "xx-zz-1")) ∧
    caughtByMain (.regionNotAvailable (regionNotAvailableMsg "xx-zz-1")) = false :=
  ⟨rfl, rfl⟩

/-- C2 (amended): scheme matching is case-insensitive in effect. `urlparse`
lowercases every scheme it accepts (no parsed scheme contains an uppercase
ASCII letter), so a locator whose scheme differs from an accepted scheme only
in letter case resolves exactly as its lowercase form instead of failing with
FormatError. -/
theorem claim2_scheme_matching_case_insensitive :
    (∀ ru scheme netloc, urlparse ru = UrlParts.parsed scheme netloc →
      ∀ c ∈ scheme.data, isUpperAZ c = false) ∧
    Context.from_url (some "CODECOMMIT://repo") envA =
      Context.from_url (some "codecommit://repo") envA ∧
    Context.from_url (some "US-EAST-1://repo") envA =
      Context.from_url (some "us-east-1://repo") envA :=
  ⟨fun _ _ _ h => urlparse_scheme_lower h, rfl, rfl⟩

/-- C2 (counterexample): the claim predicts `CODECOMMIT://repo` fails with
FormatError; in fact it resolves successfully (to the same Context as
`codecommit://repo`), because `urlparse` lowercases the scheme. -/
theorem claim2_uppercase_scheme_accepted :
    Context.from_url (some "CODECOMMIT://repo") envA =
      .ok ⟨"repo", "v1", "us-east-1", credsA⟩ := rfl

/-- C3 (amended): among parsed locators that pass the malformed-url check and
the profile check, a scheme other than `codecommit` fails with FormatError
exactly when the regex `^[a-z]{2}-\w*.*-\d{1}` does NOT match a prefix of it
(`regionMatch`); `re.match` is unanchored at the end, so trailing characters
after the digit are allowed, unlike the fully-anchored pattern the claim
states. -/
theorem claim3_region_dispatch_prefix_match (ru : String) (env : Env)
    (scheme netloc : String)
    (hp : urlparse ru = UrlParts.parsed scheme netloc) (hs : scheme ≠ "")
    (hn : netloc ≠ "") (hcc : scheme ≠ "codecommit")
    (hprof : profileOk env netloc = true) :
    (∃ msg, Context.from_url (some ru) env = .error (.formatError msg)) ↔
      regionMatch scheme = false := by
  have hstep : Context.from_url (some ru) env = (resolveParsed ru env scheme netloc).1 := by
    unfold Context.from_url resolve
    simp only [hp]
  rw [hstep]
  unfold resolveParsed
  rw [if_neg (by simp [hs, hn])]
  rcases hsp : splitFirst '@' netloc.data with _ | ⟨p, rest⟩
  · simp only [hsp]
    exact resolveWithProfile_format_iff hcc
  · simp only [hsp]
    have hmem : String.mk p ∈ env.available_profiles := by
      unfold profileOk at hprof
      rw [hsp] at hprof
      exact of_decide_eq_true hprof
    rw [if_pos hmem]
    exact resolveWithProfile_format_iff hcc

/-- C3 (witness): the scheme `foo` is neither `codecommit` nor a prefix-match
of the region pattern, so `foo://repo` fails with FormatError. -/
theorem claim3_witness :
    ∃ msg, Context.from_url (some "foo://repo") envA = .error (.formatError msg) :=
  (claim3_region_dispatch_prefix_match "foo://repo" envA "foo" "repo" (by decide) (by decide)
      (by decide) (by decide) (by decide)).mpr (by decide)

/-- C3 (counterexample): `us-east-1a` falls outside the claim's anchored
pattern (a character follows the digit), so the claim predicts FormatError;
the code instead treats it as a region identifier and fails with
RegionNotAvailable. -/
theorem claim3_trailing_chars_not_formatError :
    Context.from_url (some "us-east-1a://repo") envA =
      .error (.regionNotAvailable (regionNotAvailableMsg "us-east-1a")) := rfl

/-- C4 (amended): every Context returned by `Context.from_url` has a region
in the computed available set, version `v1`, and credentials that came from a
successful credential fetch; the repository field, however, is the authority
text after the first `@` and CAN be empty (see the counterexample). -/
theorem claim4_context_invariant (u : Option String) (env : Env) (ctx : Context)
    (h : Context.from_url u env = .ok ctx) :
    ctx.region ∈ env.availableRegions ∧ ctx.version = "v1" ∧
      ∃ p, env.getCredentials p = some ctx.credentials := by
  rcases u with _ | ru
  · unfold Context.from_url resolve at h
    simp at h
  · unfold Context.from_url resolve at h
    simp only [] at h
    split at h <;>
      first
        | exact resolveParsed_ok h
        | simp at h

/-- C4 (witness): a successful resolution of `codecommit://myrepo` satisfies
the invariant. -/
theorem claim4_witness :
    Context.from_url (some "codecommit://myrepo") envA =
      .ok ⟨"myrepo", "v1", "us-east-1", credsA⟩ ∧
    ("us-east-1" ∈ envA.availableRegions ∧ ("v1" : String) = "v1" ∧
      ∃ p, envA.getCredentials p = some credsA) :=
  ⟨rfl, claim4_context_invariant (some "codecommit://myrepo") envA
      ⟨"myrepo", "v1", "us-east-1", credsA⟩ rfl⟩

/-- C4 (counterexample): the locator `codecommit://default@` has the
authority `default@`, so the netloc check passes, the profile is `default`
and the repository is the empty string; a fully constructed Context with an
empty repository is returned, refuting "repository is never empty". -/
theorem claim4_empty_repository :
    Context.from_url (some "codecommit://default@") envA =
      .ok ⟨"", "v1", "us-east-1", credsA⟩ := rfl

/-- C5: a locator that is absent (None), or whose parse yields an empty
scheme or empty authority, fails with FormatError before any external
lookup: the list of performed session/plugin/region/credential calls is
empty. -/
theorem claim5_malformed_fails_fast (u : Option String) (env : Env)
    (h : u = none ∨ ∃ ru scheme netloc, u = some ru ∧
        urlparse ru = UrlParts.parsed scheme netloc ∧ (scheme = "" ∨ netloc = "")) :
    ∃ msg, resolve u env = (.error (.formatError msg), ([] : List ExtCall)) := by
  rcases h with rfl | ⟨ru, scheme, netloc, rfl, hup, hempty⟩
  · exact ⟨"url required", rfl⟩
  · refine ⟨malformedMsg ru, ?_⟩
    unfold resolve
    simp only [hup]
    unfold resolveParsed
    rw [if_pos hempty]

/-- C5 (witness): `codecommit:myrepo` parses with an empty authority and
fails fast with FormatError and no external call. -/
theorem claim5_witness :
    (some "codecommit:myrepo" = (none : Option String) ∨
      ∃ ru scheme netloc, some "codecommit:myrepo" = some ru ∧
        urlparse ru = UrlParts.parsed scheme netloc ∧ (scheme = "" ∨ netloc = "")) ∧
    ∃ msg, resolve (some "codecommit:myrepo") envA =
      (.error (.formatError msg), ([] : List ExtCall)) := by
  have h : some "codecommit:myrepo" = (none : Option String) ∨
      ∃ ru scheme netloc, some "codecommit:myrepo" = some ru ∧
        urlparse ru = UrlParts.parsed scheme netloc ∧ (scheme = "" ∨ netloc = "") :=
    Or.inr ⟨"codecommit:myrepo", "codecommit", "", rfl, by decide, Or.inr rfl⟩
  exact ⟨h, claim5_malformed_fails_fast (some "codecommit:myrepo") envA h⟩

/-- C6 (amended): with access key `AKIDEXAMPLE` and no session token the
embedded username is exactly `AKIDEXAMPLE`; with a NON-EMPTY session token t
it is the percent-encoding (empty safe set) of `access_key + '%' + t`. An
empty-string token is treated as absent by Python truthiness (see the
counterexample). -/
theorem claim6_username_encoding :
    (∀ sk : String, usernameOf ⟨"AKIDEXAMPLE", sk, none⟩ = "AKIDEXAMPLE") ∧
    (∀ access_key sk t : String, t ≠ "" →
      usernameOf ⟨access_key, sk, some t⟩ = quote (access_key ++ "%" ++ t)) := by
  constructor
  · intro sk
    show quote ("AKIDEXAMPLE" ++ "") = "AKIDEXAMPLE"
    rw [String.append_empty]
    rfl
  · intro ak sk t ht
    show quote (ak ++ if t = "" then "" else "%" ++ t) = quote (ak ++ "%" ++ t)
    rw [if_neg ht, ← String.append_assoc]

/-- C6 (counterexample): for the (degenerate) session token `""` the claim
predicts the username `quote("AKIDEXAMPLE%")` = `AKIDEXAMPLE%25`, but the
code's truthiness test drops the empty token and produces `AKIDEXAMPLE`. -/
theorem claim6_empty_token :
    usernameOf ⟨"AKIDEXAMPLE", "sk", some ""⟩ = "AKIDEXAMPLE" ∧
    quote ("AKIDEXAMPLE" ++ "%" ++ "") = "AKIDEXAMPLE%25" ∧
    ("AKIDEXAMPLE" : String) ≠ "AKIDEXAMPLE%25" :=
  ⟨rfl, rfl, by decide⟩

/-- C7: the produced url is exactly
`https://<quoted-username>:<timestamp>Z<signature>@<hostname>/<version>/repos/<repository>`
with the timestamp the formatted frozen clock, and the hostname the
environment override when set, else `git-codecommit.<region>.amazonaws.com`. -/
theorem claim7_url_grammar (sv : SigV4Provider) (endpoint : Option String)
    (repository version region : String) (credentials : Credentials) (now : Timestamp) :
    git_url sv endpoint repository version region credentials now =
      "https://" ++ usernameOf credentials ++ ":" ++ strftime now ++ "Z" ++
        (signRequest sv (hostnameFor endpoint region) (codePath version repository) region
            credentials now).signature ++
        "@" ++ hostnameFor endpoint region ++ "/" ++ version ++ "/repos/" ++ repository ∧
    hostnameFor endpoint region =
      (match endpoint with
        | some h => h
        | none => "git-codecommit." ++ region ++ ".amazonaws.com") := by
  constructor
  · simp only [git_url, sign, signRequest_timestamp, codePath, String.append_assoc]
  · cases endpoint <;> rfl

/-- C8 (amended): for every protocol version that contains no `/` (true of
the only version used, `v1`) and every repository name, parsing the produced
path component recovers both exactly. A version containing `/` breaks the
round-trip because the path concatenation is not injective (see the
counterexample). -/
theorem claim8_roundtrip (version repository : String)
    (h : ∀ c ∈ version.data, c ≠ '/') :
    parsePath (codePath version repository) = some (version, repository) := by
  have hdata : (codePath version repository).data =
      '/' :: (version.data ++ '/' :: ('r' :: 'e' :: 'p' :: 'o' :: 's' :: '/' :: repository.data)) := by
    simp only [codePath, string_data_append, List.append_assoc]
    rfl
  unfold parsePath
  rw [hdata]
  simp only []
  rw [splitFirst_append '/' version.data _ h]
  rfl

/-- C8 (witness): the actual parameters `v1`/`myrepo` round-trip. -/
theorem claim8_witness :
    (∀ c ∈ ("v1" : String).data, c ≠ '/') ∧
      parsePath (codePath "v1" "myrepo") = some ("v1", "myrepo") :=
  ⟨by decide, claim8_roundtrip "v1" "myrepo" (by decide)⟩

/-- C8 (counterexample): version `a/repos/b` with repository `c` produces the
same path as version `a` with repository `b/repos/c`, so no parser can
recover both pairs; the grammar parser returns the latter. -/
theorem claim8_collision :
    codePath "a" "b/repos/c" = codePath "a/repos/b" "c" ∧
    parsePath (codePath "a/repos/b" "c") = some ("a", "b/repos/c") ∧
    (some ("a", "b/repos/c") : Option (String × String)) ≠ some ("a/repos/b", "c") :=
  ⟨rfl, rfl, by decide⟩

/-- C9: signing is deterministic in the frozen clock, and the signature
token changes whenever the (valid) timestamp changes — in particular for
timestamps one second apart — because the token embeds the formatted
timestamp, which is injective on valid datetimes. -/
theorem claim9_sign_deterministic (sv : SigV4Provider) (hostname path region : String)
    (credentials : Credentials) (t1 t2 : Timestamp) (hv1 : t1.valid) (hv2 : t2.valid) :
    (t1 = t2 → sign sv hostname path region credentials t1 =
      sign sv hostname path region credentials t2) ∧
    (t1 ≠ t2 → sign sv hostname path region credentials t1 ≠
      sign sv hostname path region credentials t2) := by
  constructor
  · intro he
    rw [he]
  · intro hne hcontra
    exact hne (strftime_inj t1 t2 hv1 hv2 (sign_timestamp_inj hcontra))

/-- C9 (witness): at the concrete instants 03:04:05 and 03:04:06 of
2025-10-12 the signature tokens differ. -/
theorem claim9_witness :
    tsA.valid ∧ tsB.valid ∧ tsA ≠ tsB ∧
      sign svA "git-codecommit.us-east-1.amazonaws.com" (codePath "v1" "myrepo")
          "us-east-1" credsA tsA ≠
        sign svA "git-codecommit.us-east-1.amazonaws.com" (codePath "v1" "myrepo")
          "us-east-1" credsA tsB :=
  ⟨by decide, by decide, by decide,
    (claim9_sign_deterministic svA "git-codecommit.us-east-1.amazonaws.com"
        (codePath "v1" "myrepo") "us-east-1" credsA tsA tsB (by decide) (by decide)).2
      (by decide)⟩

/-- C10: one hostname value — the override when set, else the regional
default — appears byte-identically in the returned url, in the canonical
request's `host:` line, and in the signing request's url. -/
theorem claim10_host_consistency (sv : SigV4Provider) (endpoint : Option String)
    (repository version region : String) (credentials : Credentials) (now : Timestamp) :
    ∃ hostname,
      hostname = hostnameFor endpoint region ∧
      git_url sv endpoint repository version region credentials now =
        "https://" ++ usernameOf credentials ++ ":" ++
          sign sv hostname (codePath version repository) region credentials now ++ "@" ++
          hostname ++ codePath version repository ∧
      (signRequest sv hostname (codePath version repository) region
          credentials now).canonicalRequest =
        "GIT\n" ++ codePath version repository ++ "\n\nhost:" ++ hostname ++ "\n\nhost\n" ∧
      (signRequest sv hostname (codePath version repository) region
          credentials now).requestUrl =
        "https://" ++ hostname ++ codePath version repository :=
  ⟨hostnameFor endpoint region, rfl, rfl, rfl, rfl⟩

end GitRemoteCodecommit
